import Mathlib

/-!
Verification of the population-ecology equilibrium/simulation engine
(Pugh-Schaefer-Seabright model).

The development shallowly embeds the repository's numeric core:

* `simulators.py` (`Simulator._simulate_fixed_trajectory`,
  `Simulator._simulate_variable_trajectory`, the `initial_condition` setter,
  and `Model.simulate` from `model.py`, whose fixed-length loop is identical);
* `model.py` (`Model._objective`, `Model._jacobian`, `Model._residual`,
  `Model._get_steady_state`, `Model._get_eigenvalues`, `Model._get_isstable`,
  `Model.F`, `Model.F_jacobian`);
* `solvers.py` (`RootFinder.solve`).

Machine floats are embedded as elements of a linear ordered field (the
simulator loops are generic; the concrete claims instantiate at `ℝ` or `ℚ`).
External collaborators (the `wrapped_symbolics` compiled symbolic system,
`scipy.optimize.minimize`, `scipy.optimize.root`, `scipy.linalg.eig`) are
opaque function-valued fields of the embedding structures; their contracts
come from the specification.  Python code that can raise is embedded in
`Except PyErr`; code with no raise statement on a path is embedded as
`Except.ok` on that path.
-/

namespace PopEco

/-- Errors raised by the embedded Python code, named after the taxonomy in the
specification (`DomainError`, `PreconditionError`, `InvalidArgument` /
`ValueError`) together with the `IndexError` that numpy raises when a
zero-width trajectory array is written at column 0. -/
inductive PyErr where
  | domainError
  | preconditionError
  | valueError
  | indexError
  deriving DecidableEq, Repr

/-- An 8-dimensional state vector: indices 0-3 are the male genotype shares,
indices 4-7 the female ones. -/
abbrev Vec8 (α : Type*) := Fin 8 → α

section Simulators

variable {α : Type*} [LinearOrderedField α]

/-- `np.sum(X[:4])` : sum of the male half of the state. -/
def maleSum (X : Vec8 α) : α := X 0 + X 1 + X 2 + X 3

/-- `np.sum(X[4:])` : sum of the female half of the state. -/
def femaleSum (X : Vec8 α) : α := X 4 + X 5 + X 6 + X 7

/-- The simplex invariant of the specification: each half of the state sums
to 1 within tolerance `tol`. -/
def SimplexInv (tol : α) (X : Vec8 α) : Prop :=
  |maleSum X - 1| ≤ tol ∧ |femaleSum X - 1| ≤ tol

/-- The `initial_condition` setter of `simulators.py`: from the scalar `mGA`
and the family parameters `c`, `PiAA`, `Piaa` it builds
`hstack([mGA, 0, 0, mga], [c*PiAA*mGA, 0, 0, c*Piaa*mga])` with
`mga = 1 - mGA`. -/
def initial_condition (c PiAA Piaa mGA : α) : Vec8 α :=
  let mga := 1 - mGA
  ![mGA, 0, 0, mga, c * PiAA * mGA, 0, 0, c * Piaa * mga]

/-- The body of the `for t in range(1, T)` loop of
`Simulator._simulate_fixed_trajectory` (and of `Model.simulate`): starting
from the current state, apply `F` once per remaining step, collecting the
new states in order. -/
def simulate_fixed_loop (F : Vec8 α → Vec8 α) : Vec8 α → ℕ → List (Vec8 α)
  | _, 0 => []
  | cur, n + 1 => F cur :: simulate_fixed_loop F (F cur) n

/-- `Simulator._simulate_fixed_trajectory` / `Model.simulate`: the trajectory
array has `T` columns, column 0 is the initial condition and column `t` is
`F` of column `t-1`.  For `T = 0` the Python assignment `traj[:, 0] = ic`
into the empty `(8, 0)` array raises `IndexError`. -/
def simulate_fixed (F : Vec8 α → Vec8 α) (x0 : Vec8 α) (T : ℕ) :
    Except PyErr (List (Vec8 α)) :=
  if T = 0 then .error .indexError
  else .ok (x0 :: simulate_fixed_loop F x0 (T - 1))

/-- `np.any(np.greater(delta, rtol))` : the while-condition of
`Simulator._simulate_variable_trajectory`. -/
def np_any_gt (delta : Vec8 α) (rtol : α) : Bool :=
  decide (∃ i, rtol < delta i)

/-- The `while np.any(np.greater(delta, rtol))` loop of
`Simulator._simulate_variable_trajectory`, made total by a fuel parameter
counting the remaining permitted iterations: the source loop has no
iteration cap, and `none` records that the given number of iterations did
not reach the exit condition.  The loop state is the current `delta`, the
last column `cur` of the trajectory, and the trajectory `traj` built so
far; each iteration computes `new = F(cur)`, sets
`delta = |new - cur|` componentwise, and appends `new`. -/
def simulate_variable_loop (F : Vec8 α → Vec8 α) (rtol : α) :
    ℕ → Vec8 α → Vec8 α → List (Vec8 α) → Option (List (Vec8 α))
  | 0, delta, _, traj =>
      if np_any_gt delta rtol then none else some traj
  | n + 1, delta, cur, traj =>
      if np_any_gt delta rtol then
        simulate_variable_loop F rtol n
          (fun i => |F cur i - cur i|) (F cur) (traj ++ [F cur])
      else some traj

/-- `Simulator._simulate_variable_trajectory`: the trajectory starts as the
single column `x0` and `delta` is initialized to `np.ones(8)` before the
first test of the while-condition. -/
def simulate_variable (F : Vec8 α → Vec8 α) (x0 : Vec8 α) (rtol : α)
    (fuel : ℕ) : Option (List (Vec8 α)) :=
  simulate_variable_loop F rtol fuel (fun _ => 1) x0 [x0]

end Simulators

/-- The componentwise map `X ↦ 1 - X`, a motion map on which the variable
length simulation never reaches its exit condition. -/
def flipMap : Vec8 ℚ → Vec8 ℚ := fun v i => 1 - v i

/-- The all-zeros state. -/
def zeroState : Vec8 ℚ := fun _ => 0

/-- A state satisfying the simplex invariant exactly: component 0 and
component 4 are 1, the rest 0. -/
def cornerState : Vec8 ℚ := fun i => if i = 0 ∨ i = 4 then 1 else 0

/-- An 8×8 real matrix. -/
abbrev Mat8 := Matrix (Fin 8) (Fin 8) ℝ

/-- An 8×1 real column matrix: the shape in which the compiled symbolic
system returns vector-valued results (a lambdified `sympy` 8×1 `Matrix`
evaluates to a 2-dimensional `(8, 1)` array; this is why `Model.F` calls
`.flatten()` and `Solver.residual` calls `.ravel()` on them). -/
abbrev Col8 := Matrix (Fin 8) (Fin 1) ℝ

/-- `np.array(...).flatten()` on an 8×1 column. -/
noncomputable def np_flatten (M : Col8) : Vec8 ℝ := fun i => M i 0

/-- The elementwise product `R * J` of numpy, for an `(8, 1)` array `R`
broadcast against an `(8, 8)` array `J`: the column `R` is replicated
across the 8 columns, so entry `(i, j)` is `R[i, 0] * J[i, j]`. -/
noncomputable def np_broadcast_mul (R : Col8) (J : Mat8) : Mat8 :=
  Matrix.of fun i j => R i 0 * J i j

/-- `np.sum(M, axis=0)` : the vector of column sums of an 8×8 array. -/
noncomputable def np_sum_axis0 (M : Mat8) : Vec8 ℝ := fun j => ∑ i, M i j

/-- The object returned by `scipy.optimize.minimize`: the solution vector
`x`, the `success` flag, and the final objective value `fun`. -/
structure OptResult where
  x : Vec8 ℝ
  success : Bool
  fval : ℝ

/-- The object returned by `scipy.optimize.root`: the solution vector `x`
and the `success` flag. -/
structure RootResult where
  x : Vec8 ℝ
  success : Bool

/-- Embedding of the `Model` class of `model.py`.

The four `symb_*` fields are the external symbolic-system collaborator.
Modelled from the spec: the `wrapped_symbolics` module imported by
`model.py` is not part of the sources; per the specification it exposes
pure numeric residual / residual-Jacobian / motion / motion-Jacobian
functions of the state and parameters (the bound parameter set is absorbed
into the fields).  Vector-valued outputs are 8×1 columns, `Col8` (see
there).

The `minimize` field is `scipy.optimize.minimize`: an opaque total
function of the method name, objective, analytic gradient, initial guess,
bounds and equality constraints, returning an `OptResult`; it reports
non-convergence through `OptResult.success`, never by raising. -/
structure Model where
  symb_residual : Vec8 ℝ → Col8
  symb_residual_jacobian : Vec8 ℝ → Mat8
  symb_model_system : Vec8 ℝ → Col8
  symb_model_jacobian : Vec8 ℝ → Mat8
  minimize : String → (Vec8 ℝ → ℝ) → (Vec8 ℝ → Vec8 ℝ) → Vec8 ℝ →
    List (ℝ × ℝ) → List (Vec8 ℝ → ℝ) → OptResult
  initial_guess : Vec8 ℝ

/-- `Model._get__bound_constraints`: `[(eps, 1 - eps)] * 8` with
`eps = 1e-15`. -/
noncomputable def Model.bound_constraints : List (ℝ × ℝ) :=
  List.replicate 8 (1e-15, 1 - 1e-15)

/-- `Model._get__equality_constraints`: the two sum-to-one equality
constraint functions `X ↦ 1 - np.sum(X[:4])` and `X ↦ 1 - np.sum(X[4:])`. -/
noncomputable def Model.equality_constraints : List (Vec8 ℝ → ℝ) :=
  [fun X => 1 - maleSum X, fun X => 1 - femaleSum X]

/-- `Model._residual`: `np.array(wrapped_symbolics.residual(*X, **params))`,
an 8×1 column; no validation of `X` is performed. -/
noncomputable def Model.residual (m : Model) (X : Vec8 ℝ) : Col8 := m.symb_residual X

/-- `Model._residual_jacobian`. -/
noncomputable def Model.residual_jacobian (m : Model) (X : Vec8 ℝ) : Mat8 :=
  m.symb_residual_jacobian X

/-- `Model._objective`: `0.5 * np.sum(self._residual(X)**2)`, the sum
running over every entry of the 8×1 array. -/
noncomputable def Model.objective (m : Model) (X : Vec8 ℝ) : ℝ :=
  (1/2) * ∑ i, ∑ j, (m.residual X i j) ^ 2

/-- `Model._jacobian`: `np.sum(self._residual(X) *
self._residual_jacobian(X), axis=0)` — the broadcast product of the
residual column with the residual Jacobian, summed along axis 0.  This is
the function passed as `jac=` to the constrained minimizer. -/
noncomputable def Model.jacobian (m : Model) (X : Vec8 ℝ) : Vec8 ℝ :=
  np_sum_axis0 (np_broadcast_mul (m.residual X) (m.residual_jacobian X))

/-- `Model.F`: `np.array(wrapped_symbolics.model_system(*X,
**params)).flatten()`. -/
noncomputable def Model.F (m : Model) (X : Vec8 ℝ) : Vec8 ℝ :=
  np_flatten (m.symb_model_system X)

/-- `Model.F_jacobian`: the Jacobian of the motion map. -/
noncomputable def Model.F_jacobian (m : Model) (X : Vec8 ℝ) : Mat8 :=
  m.symb_model_jacobian X

/-- `Model._get_steady_state`: `optimize.minimize(self._objective,
x0=self._initial_guess, method='SLSQP', jac=self._jacobian,
bounds=self._bound_constraints, constraints=self._equality_constraints)`.
The result is returned as-is, whatever its `success` flag. -/
noncomputable def Model.steady_state (m : Model) : OptResult :=
  m.minimize "SLSQP" m.objective m.jacobian m.initial_guess
    Model.bound_constraints Model.equality_constraints

/-- `Model._get_eigenvalues`: `linalg.eig(self.F_jacobian(self.steady_state.x))`.
Modelled from the spec: `scipy.linalg.eig` is an external routine returning
the eigenvalues (with multiplicity) of the matrix, embedded here as the
multiset of complex roots of the characteristic polynomial of the matrix
viewed over `ℂ`.  No check of `steady_state.success` is made. -/
noncomputable def Model.eigenvalues (m : Model) : Multiset ℂ :=
  (((m.F_jacobian (m.steady_state).x)).map Complex.ofReal).charpoly.roots

/-- `Model._get_isstable`: `np.all(np.less(np.abs(self.eigenvalues), 1.0))`. -/
noncomputable def Model.isstable (m : Model) : Prop :=
  ∀ μ ∈ m.eigenvalues, Complex.abs μ < 1

/-- `Model._residual` embedded with its raise behaviour: the method body
contains no raise statement and no domain check, so every call returns
normally. -/
noncomputable def Model.residualE (m : Model) (X : Vec8 ℝ) : Except PyErr Col8 :=
  .ok (m.residual X)

/-- `Model._objective` embedded with its raise behaviour (none). -/
noncomputable def Model.objectiveE (m : Model) (X : Vec8 ℝ) :
    Except PyErr ℝ :=
  .ok (m.objective X)

/-- Reading the `steady_state` property embedded with its raise behaviour
(none: `optimize.minimize` reports failure via the result object). -/
noncomputable def Model.steady_stateE (m : Model) : Except PyErr OptResult :=
  .ok m.steady_state

/-- Reading the `eigenvalues` property embedded with its raise behaviour:
the getter calls `F_jacobian` at `steady_state.x` unconditionally; it
contains no precondition check and no raise statement. -/
noncomputable def Model.eigenvaluesE (m : Model) : Except PyErr (Multiset ℂ) :=
  .ok m.eigenvalues

/-- Reading the `isstable` property embedded with its raise behaviour
(none). -/
noncomputable def Model.isstableE (m : Model) : Except PyErr Prop :=
  .ok m.isstable

/-- Embedding of the `RootFinder` class of `solvers.py`.  The
`numeric_residual` / `numeric_jacobian` fields are the lambdified symbolic
residual system of the bound family (external collaborator); `root` is
`scipy.optimize.root`, an opaque total function of the method name, the
residual, the initial guess and the optional analytic Jacobian (`none`
embeds `jac=False`), returning a `RootResult` whose `success` flag reports
convergence — scipy does not raise on non-convergence. -/
structure RootFinder where
  numeric_residual : Vec8 ℝ → Vec8 ℝ
  numeric_jacobian : Vec8 ℝ → Mat8
  root : String → (Vec8 ℝ → Vec8 ℝ) → Vec8 ℝ → Option (Vec8 ℝ → Mat8) →
    RootResult
  initial_guess : Vec8 ℝ

/-- `RootFinder.solve`: passes `jac=self.jacobian` when `with_jacobian`
else `jac=False`, calls `optimize.root` and returns its result object. -/
noncomputable def RootFinder.solve (s : RootFinder) (method : String)
    (with_jacobian : Bool) : RootResult :=
  s.root method s.numeric_residual s.initial_guess
    (if with_jacobian then some s.numeric_jacobian else none)

/-- `RootFinder.solve` embedded with its raise behaviour (none). -/
noncomputable def RootFinder.solveE (s : RootFinder) (method : String)
    (with_jacobian : Bool) : Except PyErr RootResult :=
  .ok (s.solve method with_jacobian)

/-- An optimizer stub that always reports failure, for exercising the
non-converged paths. -/
noncomputable def failedMinimize : String → (Vec8 ℝ → ℝ) → (Vec8 ℝ → Vec8 ℝ) → Vec8 ℝ →
    List (ℝ × ℝ) → List (Vec8 ℝ → ℝ) → OptResult :=
  fun _ _ _ _ _ _ => ⟨fun _ => 0, false, 1⟩

/-- A concrete model instance whose optimizer reports failure. -/
noncomputable def cModel : Model where
  symb_residual := fun _ => Matrix.of fun _ _ => 0
  symb_residual_jacobian := fun _ => 0
  symb_model_system := fun _ => Matrix.of fun _ _ => 0
  symb_model_jacobian := fun _ => 0
  minimize := failedMinimize
  initial_guess := fun _ => 0

/-- A state with a component far outside `[0, 1]`. -/
noncomputable def badX : Vec8 ℝ := fun _ => 2

section SimulatorTheorems

variable {α : Type*} [LinearOrderedField α]

omit [LinearOrderedField α] in
theorem simulate_fixed_loop_eq (F : Vec8 α → Vec8 α) (cur : Vec8 α) (n : ℕ) :
    simulate_fixed_loop F cur n = List.iterate F (F cur) n := by
  induction n generalizing cur with
  | zero => rfl
  | succ n ih => rw [simulate_fixed_loop, List.iterate, ih]

omit [LinearOrderedField α] in
theorem simulate_fixed_eq (F : Vec8 α → Vec8 α) (x0 : Vec8 α) (T : ℕ)
    (h : 1 ≤ T) :
    simulate_fixed F x0 T = .ok (List.iterate F x0 T) := by
  obtain ⟨n, rfl⟩ : ∃ n, T = n + 1 := ⟨T - 1, (Nat.succ_pred_eq_of_pos h).symm⟩
  rw [simulate_fixed, if_neg (Nat.succ_ne_zero n), simulate_fixed_loop_eq,
    List.iterate, Nat.add_sub_cancel]

omit [LinearOrderedField α] in
/-- C7.  Fixed-length simulation with `T ≥ 1` produces exactly `T` states,
the first being the initial condition and each later one `F` of its
predecessor; there is no convergence test anywhere in the loop. -/
theorem c7_fixed_length_trajectory (F : Vec8 α → Vec8 α) (x0 : Vec8 α)
    (T : ℕ) (h : 1 ≤ T) :
    ∃ tr, simulate_fixed F x0 T = .ok tr ∧ tr.length = T ∧
      tr[0]? = some x0 ∧
      ∀ t, 1 ≤ t → t < T → tr[t]? = (tr[t - 1]?).map F := by
  refine ⟨List.iterate F x0 T, simulate_fixed_eq F x0 T h,
    List.length_iterate F x0 T, ?_, ?_⟩
  · have h0 : 0 < T := h
    rw [List.getElem?_iterate F x0 T 0 h0]
    rfl
  · intro t ht hT
    have ht' : t - 1 < T := lt_of_le_of_lt (Nat.sub_le t 1) hT
    rw [List.getElem?_iterate F x0 T t hT, List.getElem?_iterate F x0 T _ ht']
    simp only [Option.map_some']
    refine congrArg _ ?_
    obtain ⟨s, rfl⟩ : ∃ s, t = s + 1 := ⟨t - 1, (Nat.succ_pred_eq_of_pos ht).symm⟩
    simp [Function.iterate_succ_apply']

/-- Witness for C7 at a concrete input. -/
theorem c7_fixed_length_trajectory_witness :
    ∃ tr, simulate_fixed (id : Vec8 ℚ → Vec8 ℚ) zeroState 3 = .ok tr ∧
      tr.length = 3 ∧ tr[0]? = some zeroState ∧
      ∀ t, 1 ≤ t → t < 3 → tr[t]? = (tr[t - 1]?).map id :=
  c7_fixed_length_trajectory id zeroState 3 (by norm_num)

/-- C8.  The isolated-subpopulations initial condition is the stated pure
function of `(m0, params)`, and at `m0 = 0.3`, `c = 1`, `PiAA = 5`,
`Piaa = 3` it equals `[0.3, 0, 0, 0.7, 1.5, 0, 0, 2.1]`. -/
theorem c8_isolated_subpopulations_initial_condition :
    (∀ c PiAA Piaa m0 : ℝ, initial_condition c PiAA Piaa m0 =
      ![m0, 0, 0, 1 - m0, c * PiAA * m0, 0, 0, c * Piaa * (1 - m0)]) ∧
    initial_condition (1 : ℝ) 5 3 0.3 = ![0.3, 0, 0, 0.7, 1.5, 0, 0, 2.1] := by
  constructor
  · intro c PiAA Piaa m0
    rfl
  · funext i
    fin_cases i <;> norm_num [initial_condition]

theorem np_any_gt_ones (rtol : α) :
    np_any_gt (fun _ => (1 : α)) rtol = true ↔ rtol < 1 := by
  simp [np_any_gt]

theorem simulate_variable_loop_mono (F : Vec8 α → Vec8 α) (rtol : α) :
    ∀ (fuel : ℕ) (delta cur : Vec8 α) (traj tr : List (Vec8 α)),
      simulate_variable_loop F rtol fuel delta cur traj = some tr →
      traj.length ≤ tr.length ∧ ∀ i < traj.length, tr[i]? = traj[i]? := by
  intro fuel
  induction fuel with
  | zero =>
      intro delta cur traj tr h
      rw [simulate_variable_loop] at h
      split at h
      · exact absurd h (by simp)
      · cases h
        exact ⟨le_rfl, fun i _ => rfl⟩
  | succ n ih =>
      intro delta cur traj tr h
      rw [simulate_variable_loop] at h
      split at h
      · obtain ⟨hlen, hidx⟩ := ih _ _ _ _ h
        rw [List.length_append, List.length_singleton] at hlen
        refine ⟨le_trans (Nat.le_succ _) hlen, fun i hi => ?_⟩
        rw [hidx i (by rw [List.length_append, List.length_singleton]; omega),
          List.getElem?_append, if_pos hi]
      · cases h
        exact ⟨le_rfl, fun i _ => rfl⟩

theorem simulate_variable_loop_inv (F : Vec8 α → Vec8 α) (rtol : α)
    (P : Vec8 α → Prop) (hF : ∀ X, P X → P (F X)) :
    ∀ (fuel : ℕ) (delta cur : Vec8 α) (traj : List (Vec8 α)),
      P cur → (∀ s ∈ traj, P s) →
      ∀ tr, simulate_variable_loop F rtol fuel delta cur traj = some tr →
        ∀ s ∈ tr, P s := by
  intro fuel
  induction fuel with
  | zero =>
      intro delta cur traj _ htraj tr h
      rw [simulate_variable_loop] at h
      split at h
      · exact absurd h (by simp)
      · cases h; exact htraj
  | succ n ih =>
      intro delta cur traj hcur htraj tr h
      rw [simulate_variable_loop] at h
      split at h
      · refine ih _ _ _ (hF cur hcur) ?_ tr h
        intro s hs
        rcases List.mem_append.1 hs with hs | hs
        · exact htraj s hs
        · rw [List.mem_singleton.1 hs]; exact hF cur hcur
      · cases h; exact htraj

/-- C10.  Because `delta` is initialized to `np.ones(8)` before the first
test of the while-condition, a call with `rtol ≥ 1` returns the trajectory
consisting of the initial state alone without ever applying `F`, whereas a
call with `rtol < 1` enters the loop, so any returned trajectory has at
least two states and its second state is `F` of the initial one. -/
theorem c10_variable_rtol_one_threshold (F : Vec8 α → Vec8 α) (x0 : Vec8 α)
    (rtol : α) (fuel : ℕ) :
    (1 ≤ rtol → simulate_variable F x0 rtol fuel = some [x0]) ∧
    (rtol < 1 → ∀ tr, simulate_variable F x0 rtol fuel = some tr →
      2 ≤ tr.length ∧ tr[0]? = some x0 ∧ tr[1]? = some (F x0)) := by
  constructor
  · intro h
    have hc : np_any_gt (fun _ => (1 : α)) rtol = false := by
      rw [← Bool.not_eq_true, np_any_gt_ones]
      exact not_lt.2 h
    cases fuel <;> rw [simulate_variable, simulate_variable_loop, hc] <;> rfl
  · intro h tr htr
    have hc : np_any_gt (fun _ => (1 : α)) rtol = true := (np_any_gt_ones rtol).2 h
    cases fuel with
    | zero =>
        rw [simulate_variable, simulate_variable_loop, hc] at htr
        exact absurd htr (by simp)
    | succ n =>
        rw [simulate_variable, simulate_variable_loop, hc] at htr
        obtain ⟨hlen, hidx⟩ := simulate_variable_loop_mono F rtol n _ _ _ tr htr
        simp only [List.length_append, List.length_singleton,
          List.length_cons, List.length_nil] at hlen
        refine ⟨by omega, ?_, ?_⟩
        · rw [hidx 0 (by simp)]; rfl
        · rw [hidx 1 (by simp)]; rfl

/-- Witness for C10 at concrete inputs (`rtol = 1` and `rtol = 1/2`). -/
theorem c10_variable_rtol_one_threshold_witness :
    simulate_variable (id : Vec8 ℚ → Vec8 ℚ) zeroState 1 0 = some [zeroState] ∧
    (∀ tr, simulate_variable (id : Vec8 ℚ → Vec8 ℚ) zeroState (1/2) 1 = some tr →
      2 ≤ tr.length ∧ tr[0]? = some zeroState ∧ tr[1]? = some (id zeroState)) :=
  ⟨(c10_variable_rtol_one_threshold id zeroState 1 0).1 le_rfl,
   (c10_variable_rtol_one_threshold id zeroState (1/2) 1).2 (by norm_num)⟩

/-- C9.  If the motion map preserves the simplex invariant and the initial
state satisfies it, then every state of any trajectory produced by either
simulation mode satisfies it. -/
theorem c9_simplex_invariant (F : Vec8 α → Vec8 α) (tol : α) (x0 : Vec8 α)
    (T fuel : ℕ) (rtol : α)
    (hF : ∀ X, SimplexInv tol X → SimplexInv tol (F X))
    (h0 : SimplexInv tol x0) :
    (∀ tr, simulate_fixed F x0 T = .ok tr → ∀ s ∈ tr, SimplexInv tol s) ∧
    (∀ tr, simulate_variable F x0 rtol fuel = some tr →
      ∀ s ∈ tr, SimplexInv tol s) := by
  have hiter : ∀ k, SimplexInv tol (F^[k] x0) := by
    intro k
    induction k with
    | zero => exact h0
    | succ k ih => rw [Function.iterate_succ_apply']; exact hF _ ih
  constructor
  · intro tr h s hs
    rcases Nat.eq_zero_or_pos T with rfl | hT
    · rw [simulate_fixed] at h
      exact absurd h (by simp)
    · rw [simulate_fixed_eq F x0 T hT] at h
      cases h
      rcases List.mem_iterate.1 hs with ⟨m, _, rfl⟩
      exact hiter m
  · intro tr h
    refine simulate_variable_loop_inv F rtol _ hF fuel _ x0 [x0] h0 ?_ tr h
    intro s hs
    rw [List.mem_singleton.1 hs]
    exact h0

/-- Witness for C9 at a concrete input. -/
theorem c9_simplex_invariant_witness :
    (∀ tr, simulate_fixed (id : Vec8 ℚ → Vec8 ℚ) cornerState 2 = .ok tr →
      ∀ s ∈ tr, SimplexInv 0 s) ∧
    (∀ tr, simulate_variable (id : Vec8 ℚ → Vec8 ℚ) cornerState 1 0 = some tr →
      ∀ s ∈ tr, SimplexInv 0 s) :=
  c9_simplex_invariant id 0 cornerState 2 0 1 (fun _ h => h)
    (by constructor <;> norm_num +decide [maleSum, femaleSum, cornerState])

end SimulatorTheorems

theorem flipMap_loop_none :
    ∀ (fuel : ℕ) (delta cur : Vec8 ℚ) (traj : List (Vec8 ℚ)),
      (∃ i, (1 : ℚ)/2 < delta i) → (∀ i, cur i = 0 ∨ cur i = 1) →
      simulate_variable_loop flipMap (1/2) fuel delta cur traj = none := by
  intro fuel
  have hcond : ∀ delta : Vec8 ℚ, (∃ i, (1 : ℚ)/2 < delta i) →
      np_any_gt delta (1/2) = true := by
    intro delta hd
    simpa [np_any_gt] using hd
  induction fuel with
  | zero =>
      intro delta cur traj hd _
      rw [simulate_variable_loop, hcond delta hd]
      rfl
  | succ n ih =>
      intro delta cur traj hd hc
      rw [simulate_variable_loop, hcond delta hd]
      refine ih _ _ _ ⟨0, ?_⟩ ?_
      · rcases hc 0 with h | h <;> rw [flipMap] <;> rw [h] <;> norm_num
      · intro i
        rcases hc i with h | h
        · right; simp [flipMap, h]
        · left; simp [flipMap, h]

/-- C2 (code evaluation at the failing input).  The variable-length
simulation of `simulators.py` has no iteration cap: with the motion map
`X ↦ 1 - X`, the all-zeros initial state and `rtol = 1/2`, the
while-condition holds at every iteration, so no finite number of loop
iterations makes the run terminate — the code loops indefinitely instead of
reporting a `NonConvergence` condition. -/
theorem c2_variable_sim_has_no_iteration_cap (fuel : ℕ) :
    simulate_variable flipMap zeroState ((1 : ℚ)/2) fuel = none := by
  refine flipMap_loop_none fuel _ _ _ ⟨0, by norm_num⟩ ?_
  intro i
  left
  rfl

/-- C1.  The function passed as the analytic gradient to the constrained
minimizer is `residualᵀ · residual_jacobian`: its `j`-th component is the
sum over `i` of `residual_i * residual_jacobian_{i,j}` (the residual being
the 8×1 column returned by the symbolic system, broadcast by numpy across
the columns of the Jacobian and summed along axis 0), and the objective is
`0.5 * Σ residual_i²`. -/
theorem c1_objective_gradient_is_residual_dot_jacobian (m : Model)
    (X : Vec8 ℝ) :
    (∀ j, m.jacobian X j =
      ∑ i, m.residual X i 0 * m.residual_jacobian X i j) ∧
    m.objective X = (1/2) * ∑ i, (m.residual X i 0) ^ 2 := by
  refine ⟨fun j => rfl, ?_⟩
  unfold Model.objective
  congr 1
  refine Finset.sum_congr rfl fun i _ => ?_
  exact Fin.sum_univ_one _

theorem mem_spectrum_iff_isRoot_charpoly {n : Type*} [Fintype n]
    [DecidableEq n] (A : Matrix n n ℂ) (μ : ℂ) :
    μ ∈ spectrum ℂ A ↔ A.charpoly.IsRoot μ := by
  have hmap : (algebraMap ℂ (Matrix n n ℂ)) μ = Matrix.scalar n μ := rfl
  have heval : Polynomial.eval μ A.charpoly = ((Matrix.scalar n) μ - A).det := by
    rw [Matrix.charpoly, Matrix.eval_det, Matrix.matPolyEquiv_charmatrix,
      Polynomial.eval_sub, Polynomial.eval_X, Polynomial.eval_C]
  rw [spectrum.mem_iff, Matrix.isUnit_iff_isUnit_det, isUnit_iff_ne_zero,
    not_not, Polynomial.IsRoot.def, heval, hmap]

theorem eigenvalues_mem_iff (m : Model) (μ : ℂ) :
    μ ∈ m.eigenvalues ↔
      μ ∈ spectrum ℂ ((m.F_jacobian (m.steady_state).x).map Complex.ofReal) := by
  rw [Model.eigenvalues, Polynomial.mem_roots',
    mem_spectrum_iff_isRoot_charpoly]
  simp [(Matrix.charpoly_monic _).ne_zero]

/-- C3.  The stability verdict is computed from the Jacobian of the motion
map `F` (field `symb_model_jacobian`, not the residual Jacobian) evaluated
at the solved equilibrium state `steady_state.x`, and it holds exactly when
every spectral value of that matrix (over `ℂ`) has magnitude strictly less
than 1. -/
theorem c3_stability_verdict_from_motion_map_jacobian (m : Model) :
    m.isstable ↔
      ∀ μ ∈ spectrum ℂ ((m.F_jacobian (m.steady_state).x).map Complex.ofReal),
        Complex.abs μ < 1 := by
  unfold Model.isstable
  constructor
  · intro h μ hμ
    exact h μ ((eigenvalues_mem_iff m μ).2 hμ)
  · intro h μ hμ
    exact h μ ((eigenvalues_mem_iff m μ).1 hμ)

/-- C4 (counterexample).  A model whose optimizer reports failure: the
steady-state result has `success = false`, yet querying the eigenvalues and
the stability verdict returns values — no `PreconditionError` (nor any
other exception) is raised. -/
theorem c4_counterexample_verdict_despite_failed_result :
    (cModel.steady_state).success = false ∧
    cModel.eigenvaluesE = Except.ok cModel.eigenvalues ∧
    cModel.isstableE = Except.ok cModel.isstable :=
  ⟨rfl, rfl, rfl⟩

/-- C4 (amended).  The stability getters perform no check of the success
flag: for every model whose solved result has `success = false`, querying
the eigenvalues or the stability verdict still returns normally, computed
at whatever state the failed search produced. -/
theorem c4_no_precondition_check_in_stability_getters (m : Model)
    (_h : (m.steady_state).success = false) :
    m.eigenvaluesE = Except.ok m.eigenvalues ∧
    m.isstableE = Except.ok m.isstable :=
  ⟨rfl, rfl⟩

/-- Witness for the amended C4 at a concrete non-converged model. -/
theorem c4_no_precondition_check_in_stability_getters_witness :
    cModel.eigenvaluesE = Except.ok cModel.eigenvalues ∧
    cModel.isstableE = Except.ok cModel.isstable :=
  c4_no_precondition_check_in_stability_getters cModel rfl

/-- C5 (counterexample).  At a state with every component equal to 2 —
outside `[0, 1]` by a full unit, more than any reasonable slack — the
residual evaluation returns normally instead of failing with
`DomainError`. -/
theorem c5_counterexample_no_domain_check :
    (1 : ℝ) < badX 0 ∧
    cModel.residualE badX = Except.ok (cModel.residual badX) :=
  ⟨by norm_num [badX], rfl⟩

/-- C5 (amended).  `Model._residual` and `Model._objective` perform no
domain validation at all: for every state `X`, in or out of `[0, 1]`, they
return normally and never raise a `DomainError`. -/
theorem c5_residual_never_raises_domain_error (m : Model) (X : Vec8 ℝ) :
    m.residualE X = Except.ok (m.residual X) ∧
    m.objectiveE X = Except.ok (m.objective X) :=
  ⟨rfl, rfl⟩

/-- C6.  Neither the minimization-based steady-state computation nor the
root-finding solver raises on non-convergence: both always return the
optimizer's result object, whose `success` field carries the convergence
status for the caller to inspect. -/
theorem c6_solvers_never_raise_on_nonconvergence (m : Model)
    (s : RootFinder) (method : String) (with_jacobian : Bool) :
    m.steady_stateE = Except.ok m.steady_state ∧
    s.solveE method with_jacobian = Except.ok (s.solve method with_jacobian) :=
  ⟨rfl, rfl⟩

end PopEco
